import Mathlib

/-!
Shallow embedding of the exchange core of the dex-pi-coin repository:
the `DEX` contract (pool bookkeeping, constant-product pricing, swaps,
liquidity add/remove), the simplified `LiquidityPool` contract
(deposit/withdraw/claimRewards over a single token), and the `PiCoin`
contract (transfer fee hook, fee withdrawal, supply controller).

Machine integers (`uint256`) are embedded as `Nat`; the SafeMath /
Solidity 0.8 checked arithmetic discipline is embedded by guarding every
subtraction and returning an error where the source would revert, and a
`revert` aborts the whole call, which is embedded by `Except`: an
operation either returns the new state together with its emitted events,
or an error and (by the runner `execOp`) the unchanged pre-state.
-/

namespace DexSpec

/-- Addresses (token contracts and account identities) as natural numbers. -/
abbrev Addr := Nat

/-- Error taxonomy: one constructor per distinct revert cause in the source. -/
inductive Err where
  | invalidInput
  | poolNotFound
  | insufficientOutput
  | insufficientLiquidity
  | insufficientShares
  | unauthorized
  | pausedErr
  | underflow
  | transferFailed
  deriving DecidableEq, Repr

/-- Events emitted by the `DEX` contract. -/
inductive Event where
  | liquidityAdded (tokenA tokenB amountA amountB : Nat)
  | liquidityRemoved (tokenA tokenB amountA amountB : Nat)
  | tokensSwapped (tokenIn tokenOut amountIn amountOut : Nat)
  | feesWithdrawn (token amount : Nat)
  deriving DecidableEq, Repr

/-- The `Pool` struct of the `DEX` contract. -/
structure Pool where
  tokenAAmount : Nat
  tokenBAmount : Nat
  totalLiquidity : Nat
  deriving DecidableEq, Repr

/-- The address the `DEX` contract itself occupies (`address(this)`). -/
def dexAddr : Addr := 1000

/-- State of the `DEX` contract together with the balance books of the
external ERC20 token collaborators (`balances tok holder`). -/
structure DEXState where
  liquidityPools : Addr → Addr → Pool
  userLiquidity : Addr → Addr → Addr → Nat
  feePercentage : Nat
  paused : Bool
  owner : Addr
  balances : Addr → Addr → Nat

/-- Modelled from the spec: the fungible-asset collaborator (the ERC20
token contracts are external imports, not part of this repository's
source). A transfer moves `amount` of token `tok` from `src` to `dst`
in the balance book; the call fully succeeds or fails as a whole, and
it fails exactly when `src` holds less than `amount`. This is the
unguarded balance move; callers check `amount ≤ balances tok src`. -/
def erc20Move (balances : Addr → Addr → Nat) (tok src dst amount : Nat) :
    Addr → Addr → Nat :=
  let afterSub := fun t h => if t = tok ∧ h = src then balances t h - amount else balances t h
  fun t h => if t = tok ∧ h = dst then afterSub t h + amount else afterSub t h

/-- The division step of `getAmountOut`: `numerator / denominator` with
`amountInWithFee = amountIn * 997`, `numerator = amountInWithFee * reserveOut`,
`denominator = reserveIn * 1000 + amountInWithFee`. -/
def getAmountOutVal (amountIn reserveIn reserveOut : Nat) : Nat :=
  let amountInWithFee := amountIn * 997
  let numerator := amountInWithFee * reserveOut
  let denominator := reserveIn * 1000 + amountInWithFee
  numerator / denominator

/-- `DEX.getAmountOut`: requires `amountIn > 0` and both reserves positive,
then returns the constant-product output with the 0.3% multiplicative fee. -/
def getAmountOut (amountIn reserveIn reserveOut : Nat) : Except Err Nat :=
  if amountIn = 0 then .error .invalidInput
  else if reserveIn = 0 ∨ reserveOut = 0 then .error .insufficientLiquidity
  else .ok (getAmountOutVal amountIn reserveIn reserveOut)

/-- `DEX.addLiquidity`: requires both amounts positive, pulls both tokens
from the caller, then credits the pool stored at the ordered key
`(tokenA, tokenB)` and the caller's liquidity record with `amountA + amountB`. -/
def addLiquidity (s : DEXState) (tokenA tokenB amountA amountB : Nat) (caller : Addr) :
    Except Err (DEXState × List Event) :=
  if s.paused then .error .pausedErr
  else if amountA = 0 ∨ amountB = 0 then .error .invalidInput
  else if s.balances tokenA caller < amountA then .error .transferFailed
  else
    let b1 := erc20Move s.balances tokenA caller dexAddr amountA
    if b1 tokenB caller < amountB then .error .transferFailed
    else
      let b2 := erc20Move b1 tokenB caller dexAddr amountB
      let pool := s.liquidityPools tokenA tokenB
      let pool2 : Pool :=
        { tokenAAmount := pool.tokenAAmount + amountA
          tokenBAmount := pool.tokenBAmount + amountB
          totalLiquidity := pool.totalLiquidity + (amountA + amountB) }
      .ok ({ s with
              balances := b2
              liquidityPools := fun a b =>
                if a = tokenA ∧ b = tokenB then pool2 else s.liquidityPools a b
              userLiquidity := fun a b u =>
                if a = tokenA ∧ b = tokenB ∧ u = caller then
                  s.userLiquidity a b u + (amountA + amountB)
                else s.userLiquidity a b u },
            [Event.liquidityAdded tokenA tokenB amountA amountB])

/-- `DEX.removeLiquidity`: requires both amounts positive and the pool at
the ordered key `(tokenA, tokenB)` to hold at least the requested reserves;
SafeMath guards the share subtractions; then debits the pool and the
caller's liquidity record by `amountA + amountB` and pays both tokens back. -/
def removeLiquidity (s : DEXState) (tokenA tokenB amountA amountB : Nat) (caller : Addr) :
    Except Err (DEXState × List Event) :=
  if s.paused then .error .pausedErr
  else if amountA = 0 ∨ amountB = 0 then .error .invalidInput
  else
    let pool := s.liquidityPools tokenA tokenB
    if pool.tokenAAmount < amountA ∨ pool.tokenBAmount < amountB then
      .error .insufficientLiquidity
    else if pool.totalLiquidity < amountA + amountB then .error .underflow
    else if s.userLiquidity tokenA tokenB caller < amountA + amountB then
      .error .insufficientShares
    else if s.balances tokenA dexAddr < amountA then .error .transferFailed
    else
      let b1 := erc20Move s.balances tokenA dexAddr caller amountA
      if b1 tokenB dexAddr < amountB then .error .transferFailed
      else
        let b2 := erc20Move b1 tokenB dexAddr caller amountB
        let pool2 : Pool :=
          { tokenAAmount := pool.tokenAAmount - amountA
            tokenBAmount := pool.tokenBAmount - amountB
            totalLiquidity := pool.totalLiquidity - (amountA + amountB) }
        .ok ({ s with
                balances := b2
                liquidityPools := fun a b =>
                  if a = tokenA ∧ b = tokenB then pool2 else s.liquidityPools a b
                userLiquidity := fun a b u =>
                  if a = tokenA ∧ b = tokenB ∧ u = caller then
                    s.userLiquidity a b u - (amountA + amountB)
                  else s.userLiquidity a b u },
              [Event.liquidityRemoved tokenA tokenB amountA amountB])

/-- `DEX.swapTokens`: prices the full `amountIn` with `getAmountOut` against
the pool at the ordered key `(tokenIn, tokenOut)` (the guards on `amountIn`
and the reserves subsume the requires inside `getAmountOut`, so its value
branch `getAmountOutVal` is reached exactly here), skims
`fee = amountIn * feePercentage / 100`, pulls the full `amountIn` from the
caller, pays `amountOut` to the caller, and then credits the in-reserve with
`amountIn - fee` and debits the out-reserve by `amountOut`. -/
def swapTokens (s : DEXState) (tokenIn tokenOut amountIn : Nat) (caller : Addr) :
    Except Err (DEXState × List Event) :=
  if s.paused then .error .pausedErr
  else if amountIn = 0 then .error .invalidInput
  else
    let pool := s.liquidityPools tokenIn tokenOut
    if pool.tokenAAmount = 0 ∨ pool.tokenBAmount = 0 then .error .poolNotFound
    else
      let amountOut := getAmountOutVal amountIn pool.tokenAAmount pool.tokenBAmount
      if amountOut = 0 then .error .insufficientOutput
      else
        let fee := amountIn * s.feePercentage / 100
        if amountIn < fee then .error .underflow
        else
          let amountInAfterFee := amountIn - fee
          if s.balances tokenIn caller < amountIn then .error .transferFailed
          else
            let b1 := erc20Move s.balances tokenIn caller dexAddr amountIn
            if b1 tokenOut dexAddr < amountOut then .error .transferFailed
            else
              let b2 := erc20Move b1 tokenOut dexAddr caller amountOut
              if pool.tokenBAmount < amountOut then .error .underflow
              else
                let pool2 : Pool :=
                  { tokenAAmount := pool.tokenAAmount + amountInAfterFee
                    tokenBAmount := pool.tokenBAmount - amountOut
                    totalLiquidity := pool.totalLiquidity }
                .ok ({ s with
                        balances := b2
                        liquidityPools := fun a b =>
                          if a = tokenIn ∧ b = tokenOut then pool2
                          else s.liquidityPools a b },
                      [Event.tokensSwapped tokenIn tokenOut amountIn amountOut])

/-- The externally callable pool-mutating operations of the `DEX` contract. -/
inductive Op where
  | deposit (tokenA tokenB amountA amountB caller : Nat)
  | withdraw (tokenA tokenB amountA amountB caller : Nat)
  | swap (tokenIn tokenOut amountIn caller : Nat)
  deriving DecidableEq, Repr

/-- Whether an operation is a withdrawal (`removeLiquidity`). -/
def Op.isWithdraw : Op → Bool
  | .withdraw _ _ _ _ _ => true
  | _ => false

/-- The ordered pair of asset identifiers an operation is addressed with
(the two addresses indexing `liquidityPools` in the source). -/
def Op.pairKey : Op → Addr × Addr
  | .deposit a b _ _ _ => (a, b)
  | .withdraw a b _ _ _ => (a, b)
  | .swap i o _ _ => (i, o)

/-- Dispatch an operation to the contract function it names. -/
def applyOp (s : DEXState) : Op → Except Err (DEXState × List Event)
  | .deposit a b x y c => addLiquidity s a b x y c
  | .withdraw a b x y c => removeLiquidity s a b x y c
  | .swap i o x c => swapTokens s i o x c

/-- Run one operation with revert semantics: a failing call rolls the
state back to the pre-state and emits nothing. -/
def execOp (s : DEXState) (op : Op) : DEXState × List Event :=
  match applyOp s op with
  | .ok r => r
  | .error _ => (s, [])

/-- Run a sequence of operations, each with revert semantics. -/
def execOps (s : DEXState) (ops : List Op) : DEXState :=
  ops.foldl (fun st op => (execOp st op).fst) s

/-- The deployed contract before any pool was touched: every pool reads
all-zero, no liquidity records, the default 1% skim fee, unpaused. The
external token balance books are a parameter. -/
def initState (balances : Addr → Addr → Nat) : DEXState :=
  { liquidityPools := fun _ _ => ⟨0, 0, 0⟩
    userLiquidity := fun _ _ _ => 0
    feePercentage := 1
    paused := false
    owner := 0
    balances := balances }

/-- A concrete balance book: every holder owns 1000 of every token. -/
def bal1000 : Addr → Addr → Nat := fun _ _ => 1000

/-- The error of a failed call, `none` on success. -/
def errorOf {α : Type} : Except Err α → Option Err
  | .error e => some e
  | .ok _ => none

/-- The pool-emptiness invariant claimed by the spec for a single pool. -/
def poolInv (p : Pool) : Prop :=
  (p.tokenAAmount = 0 ↔ p.tokenBAmount = 0) ∧
  (p.tokenAAmount = 0 ↔ p.totalLiquidity = 0)

instance (p : Pool) : Decidable (poolInv p) := by
  unfold poolInv; infer_instance

/-- The pool-emptiness invariant over every stored pool. -/
def AllPoolsInv (s : DEXState) : Prop :=
  ∀ A B, poolInv (s.liquidityPools A B)

/-! ### The `PiCoin` contract -/

/-- Events emitted by the `PiCoin` contract (the ones the claims observe). -/
inductive PiEvent where
  | feesCollected (amount : Nat)
  | supplyAdjusted (amount : Nat)
  deriving DecidableEq, Repr

/-- The null address (`address(0)`), the mint/burn endpoint. -/
def nullAddr : Addr := 0

/-- The address the `PiCoin` contract itself occupies (`address(this)`). -/
def piAddr : Addr := 1

/-- State of the `PiCoin` contract: its ERC20 balance book and total
supply, the fee configuration and accumulator, the lifecycle flag, the
owner, and the ETH balance book (`withdrawFees` pays in ETH). -/
structure PiState where
  balances : Addr → Nat
  totalSupply : Nat
  totalFeesCollected : Nat
  transactionFee : Nat
  paused : Bool
  owner : Addr
  ethBalances : Addr → Nat

/-- Move `amount` from `src` to `dst` in a single-token balance book
(subtract first, then add, so a self-move is a no-op). -/
def tokenMove (bal : Addr → Nat) (src dst amount : Nat) : Addr → Nat :=
  let afterSub := fun h => if h = src then bal h - amount else bal h
  fun h => if h = dst then afterSub h + amount else afterSub h

/-- `PiCoin._beforeTokenTransfer`, the fee hook. Modelled from the spec:
the OpenZeppelin ERC20 base contract is an external import, not part of
this repository's source; per the spec the internal `_transfer` calls the
hook issues are hook-exempt balance moves, so for a transfer between two
non-null holders the hook's routing (`amount - fee` to the recipient,
`fee` to the contract's own custody) is the whole observable effect of
the transfer. A null endpoint (mint or burn) takes the fee-free branch. -/
def beforeTokenTransfer (s : PiState) (src dst amount : Nat) :
    Except Err (PiState × List PiEvent) :=
  if s.paused then .error .pausedErr
  else if src ≠ nullAddr ∧ dst ≠ nullAddr then
    let fee := amount * s.transactionFee / 10000
    if amount < fee then .error .underflow
    else
      let amountAfterFee := amount - fee
      if s.balances src < amountAfterFee then .error .transferFailed
      else
        let b1 := tokenMove s.balances src dst amountAfterFee
        if b1 src < fee then .error .transferFailed
        else
          let b2 := tokenMove b1 src piAddr fee
          .ok ({ s with
                  balances := b2
                  totalFeesCollected := s.totalFeesCollected + fee },
                [PiEvent.feesCollected fee])
  else .ok (s, [])

/-- ERC20 `_mint` under the fee hook: the hook sees `from = address(0)`
(no fee), then the supply and the recipient's balance grow by `amount`.
The base-contract bookkeeping is modelled from the spec (external import). -/
def mintTokens (s : PiState) (dst amount : Nat) : Except Err (PiState × List PiEvent) :=
  match beforeTokenTransfer s nullAddr dst amount with
  | .error e => .error e
  | .ok (s1, ev) =>
    .ok ({ s1 with
            balances := fun h => if h = dst then s1.balances h + amount else s1.balances h
            totalSupply := s1.totalSupply + amount }, ev)

/-- ERC20 `_burn` under the fee hook: the hook sees `to = address(0)`
(no fee); the burn fails if the holder's balance is insufficient, else
the supply and the holder's balance shrink by `amount`. The base-contract
bookkeeping is modelled from the spec (external import). -/
def burnTokens (s : PiState) (src amount : Nat) : Except Err (PiState × List PiEvent) :=
  match beforeTokenTransfer s src nullAddr amount with
  | .error e => .error e
  | .ok (s1, ev) =>
    if s1.balances src < amount then .error .transferFailed
    else
      .ok ({ s1 with
              balances := fun h => if h = src then s1.balances h - amount else s1.balances h
              totalSupply := s1.totalSupply - amount }, ev)

/-- `PiCoin.TARGET_PRICE = 314159 * 10**18`. -/
def TARGET_PRICE : Nat := 314159 * 10 ^ 18

/-- `PiCoin.getCurrentPrice`: the source returns the placeholder
`TARGET_PRICE` unconditionally instead of consulting the price feed. -/
def getCurrentPrice (_s : PiState) : Nat := TARGET_PRICE

/-- `PiCoin.adjustSupply`: owner-only; reads `getCurrentPrice` and mints
(resp. burns) `(gap / 1e18) * 1000` when the price is below (resp. above)
the target, emitting `SupplyAdjusted`; no-op when equal. -/
def adjustSupply (s : PiState) (caller : Addr) : Except Err (PiState × List PiEvent) :=
  if caller ≠ s.owner then .error .unauthorized
  else
    let currentPrice := getCurrentPrice s
    if currentPrice < TARGET_PRICE then
      let amountToMint := (TARGET_PRICE - currentPrice) / 10 ^ 18 * 1000
      match mintTokens s caller amountToMint with
      | .error e => .error e
      | .ok (s1, ev) => .ok (s1, ev ++ [PiEvent.supplyAdjusted amountToMint])
    else if TARGET_PRICE < currentPrice then
      let amountToBurn := (currentPrice - TARGET_PRICE) / 10 ^ 18 * 1000
      match burnTokens s caller amountToBurn with
      | .error e => .error e
      | .ok (s1, ev) => .ok (s1, ev ++ [PiEvent.supplyAdjusted amountToBurn])
    else .ok (s, [])

/-- `PiCoin.withdrawFees`: owner-only; reads the whole `totalFeesCollected`,
zeroes it, and pays that amount of ETH to the caller (Solidity's
`payable(msg.sender).transfer` fails when the contract holds less ETH). -/
def withdrawFees (s : PiState) (caller : Addr) : Except Err (PiState × List PiEvent) :=
  if caller ≠ s.owner then .error .unauthorized
  else
    let amount := s.totalFeesCollected
    if s.ethBalances piAddr < amount then .error .transferFailed
    else
      .ok ({ s with
              totalFeesCollected := 0
              ethBalances := tokenMove s.ethBalances piAddr caller amount }, [])

/-- The externally callable `PiCoin` operations the claims observe. -/
inductive PiOp where
  | transferOp (src dst amount : Nat)
  | mintOp (caller dst amount : Nat)
  | burnOp (caller amount : Nat)
  | adjustOp (caller : Nat)
  | withdrawFeesOp (caller : Nat)
  deriving DecidableEq, Repr

/-- Dispatch a `PiCoin` operation. A `transferOp` between two non-null
holders is the fee-bearing transfer; `mintOp`/`burnOp` are the owner-only
`mint`/`burn` entry points. -/
def applyPiOp (s : PiState) : PiOp → Except Err (PiState × List PiEvent)
  | .transferOp src dst amount => beforeTokenTransfer s src dst amount
  | .mintOp caller dst amount =>
      if caller ≠ s.owner then .error .unauthorized else mintTokens s dst amount
  | .burnOp caller amount =>
      if caller ≠ s.owner then .error .unauthorized else burnTokens s caller amount
  | .adjustOp caller => adjustSupply s caller
  | .withdrawFeesOp caller => withdrawFees s caller

/-- Run one `PiCoin` operation with revert semantics. -/
def execPiOp (s : PiState) (op : PiOp) : PiState × List PiEvent :=
  match applyPiOp s op with
  | .ok r => r
  | .error _ => (s, [])

/-! ### The simplified `LiquidityPool` contract -/

/-- Events emitted by the `LiquidityPool` contract. -/
inductive LPEvent where
  | deposited (user amount : Nat)
  | withdrawn (user amount : Nat)
  | rewardsClaimed (user amount : Nat)
  deriving DecidableEq, Repr

/-- The address the `LiquidityPool` contract occupies in the pooled
token's balance book. -/
def lpAddr : Addr := 2

/-- State of the `LiquidityPool` contract: the per-holder share ledger
(`balances`), `totalSupply`, the pooled token's external balance book,
and the lifecycle flag. -/
structure LPState where
  balances : Addr → Nat
  totalSupply : Nat
  tokenBalances : Addr → Nat
  paused : Bool

/-- `LiquidityPool.deposit`: requires a positive amount, pulls the token
from the caller, credits the caller's share balance and `totalSupply`. -/
def lpDeposit (s : LPState) (caller amount : Nat) : Except Err (LPState × List LPEvent) :=
  if s.paused then .error .pausedErr
  else if amount = 0 then .error .invalidInput
  else if s.tokenBalances caller < amount then .error .transferFailed
  else
    .ok ({ s with
            tokenBalances := tokenMove s.tokenBalances caller lpAddr amount
            balances := fun u => if u = caller then s.balances u + amount else s.balances u
            totalSupply := s.totalSupply + amount }, [LPEvent.deposited caller amount])

/-- `LiquidityPool.withdraw`: requires a positive amount not exceeding the
caller's share balance, debits the caller's shares and `totalSupply`, and
pays the token back. -/
def lpWithdraw (s : LPState) (caller amount : Nat) : Except Err (LPState × List LPEvent) :=
  if s.paused then .error .pausedErr
  else if amount = 0 then .error .invalidInput
  else if s.balances caller < amount then .error .insufficientShares
  else if s.totalSupply < amount then .error .underflow
  else if s.tokenBalances lpAddr < amount then .error .transferFailed
  else
    .ok ({ s with
            tokenBalances := tokenMove s.tokenBalances lpAddr caller amount
            balances := fun u => if u = caller then s.balances u - amount else s.balances u
            totalSupply := s.totalSupply - amount }, [LPEvent.withdrawn caller amount])

/-- `LiquidityPool.claimRewards`: pays the caller their whole recorded
share balance in the pooled token and zeroes that balance; the source
does not decrease `totalSupply` here. -/
def lpClaimRewards (s : LPState) (caller : Nat) : Except Err (LPState × List LPEvent) :=
  if s.paused then .error .pausedErr
  else
    let rewardAmount := s.balances caller
    if rewardAmount = 0 then .error .invalidInput
    else if s.tokenBalances lpAddr < rewardAmount then .error .transferFailed
    else
      .ok ({ s with
              tokenBalances := tokenMove s.tokenBalances lpAddr caller rewardAmount
              balances := fun u => if u = caller then 0 else s.balances u },
            [LPEvent.rewardsClaimed caller rewardAmount])

/-- The externally callable `LiquidityPool` operations. -/
inductive LPOp where
  | depositOp (caller amount : Nat)
  | withdrawOp (caller amount : Nat)
  | claimOp (caller : Nat)
  deriving DecidableEq, Repr

/-- Dispatch a `LiquidityPool` operation. -/
def applyLPOp (s : LPState) : LPOp → Except Err (LPState × List LPEvent)
  | .depositOp c a => lpDeposit s c a
  | .withdrawOp c a => lpWithdraw s c a
  | .claimOp c => lpClaimRewards s c

/-- Run one `LiquidityPool` operation with revert semantics. -/
def execLPOp (s : LPState) (op : LPOp) : LPState × List LPEvent :=
  match applyLPOp s op with
  | .ok r => r
  | .error _ => (s, [])

/-- Run a sequence of `LiquidityPool` operations with revert semantics. -/
def execLPOps (s : LPState) (ops : List LPOp) : LPState :=
  ops.foldl (fun st op => (execLPOp st op).fst) s

/-- The deployed `LiquidityPool` before any deposit: no shares, zero
supply; the pooled token's balance book is a parameter. -/
def lpInit (tokenBalances : Addr → Nat) : LPState :=
  { balances := fun _ => 0
    totalSupply := 0
    tokenBalances := tokenBalances
    paused := false }

/-- Sum of the recorded share balances of holders `0, …, n-1`. -/
def sharesSum (s : LPState) (n : Nat) : Nat :=
  (Finset.range n).sum s.balances

/-- A concrete `PiCoin` state used as a witness input: every holder owns
1000 tokens, 1% transfer fee, 7 accrued fee units, owner 5, 50 ETH held
by the contract. -/
def piS0 : PiState :=
  { balances := fun _ => 1000
    totalSupply := 5000
    totalFeesCollected := 7
    transactionFee := 100
    paused := false
    owner := 5
    ethBalances := fun _ => 50 }

/-- A concrete reachable `DEX` state used as a witness input: the fresh
contract after a deposit of `(500, 500)` into the pair `(1, 2)` by
holder 7. -/
def sAfterDeposit : DEXState := (execOp (initState bal1000) (.deposit 1 2 500 500 7)).fst

/-- `DEX.withdrawFees`: owner-only; reads the contract's ENTIRE balance of
`token` (`IERC20(token).balanceOf(address(this))` — there is no separate
accrued-fee accumulator in this contract), requires it non-zero, transfers
all of it to the caller, and emits `FeesWithdrawn{token, amount}`; the
recorded pool reserves are not consulted or updated. -/
def dexWithdrawFees (s : DEXState) (token caller : Addr) :
    Except Err (DEXState × List Event) :=
  if caller ≠ s.owner then .error .unauthorized
  else
    let amount := s.balances token dexAddr
    if amount = 0 then .error .invalidInput
    else
      .ok ({ s with balances := erc20Move s.balances token dexAddr caller amount },
            [Event.feesWithdrawn token amount])

/-- Run `DEX.withdrawFees` with revert semantics. -/
def execDexWithdraw (s : DEXState) (token caller : Addr) : DEXState × List Event :=
  match dexWithdrawFees s token caller with
  | .ok r => r
  | .error _ => (s, [])

/-- A balance book in which the `DEX` contract starts with no custody and
every other holder owns 1000 of every token (clean fee accounting). -/
def balNoCustody : Addr → Addr → Nat := fun _ h => if h = dexAddr then 0 else 1000

/-- A concrete reachable `DEX` state: fresh contract with clean custody,
after `deposit(1, 2, 500, 500)` and `swap(1, 2, 100)` by holder 7. The
contract then holds 600 of token 1: 599 recorded as pool reserve and 1
accrued as the skim fee of the swap. -/
def sTrace : DEXState :=
  execOps (initState balNoCustody) [.deposit 1 2 500 500 7, .swap 1 2 100 7]

/-! ### Arithmetic facts about the pricing function -/

/-- The quoted output is strictly below the out-reserve whenever both
reserves are positive. -/
lemma getAmountOutVal_lt (a rIn rOut : Nat) (hin : 0 < rIn) (hout : 0 < rOut) :
    getAmountOutVal a rIn rOut < rOut := by
  simp only [getAmountOutVal]
  have hD : 0 < rIn * 1000 + a * 997 := by omega
  rw [Nat.div_lt_iff_lt_mul hD]
  have h0 : 0 < rIn * 1000 * rOut := Nat.mul_pos (by omega) hout
  calc a * 997 * rOut < a * 997 * rOut + rIn * 1000 * rOut := by omega
    _ = rOut * (rIn * 1000 + a * 997) := by ring

/-- The quoted output is monotone in the input amount for a fixed pair of
reserves with positive in-reserve. -/
lemma getAmountOutVal_mono (x y rIn rOut : Nat) (hxy : x ≤ y) (hin : 0 < rIn) :
    getAmountOutVal x rIn rOut ≤ getAmountOutVal y rIn rOut := by
  simp only [getAmountOutVal]
  have hD1 : 0 < rIn * 1000 + x * 997 := by omega
  have hD2 : 0 < rIn * 1000 + y * 997 := by omega
  rw [Nat.le_div_iff_mul_le hD2]
  have h1 : x * 997 * rOut / (rIn * 1000 + x * 997) * (rIn * 1000 + x * 997)
      ≤ x * 997 * rOut := Nat.div_mul_le_self _ _
  have key : x * (997 * rOut * (rIn * 1000)) ≤ y * (997 * rOut * (rIn * 1000)) :=
    Nat.mul_le_mul hxy (Nat.le_refl _)
  have hcross : x * 997 * rOut * (rIn * 1000 + y * 997)
      ≤ y * 997 * rOut * (rIn * 1000 + x * 997) := by
    calc x * 997 * rOut * (rIn * 1000 + y * 997)
        = x * (997 * rOut * (rIn * 1000)) + x * 997 * rOut * (y * 997) := by ring
      _ ≤ y * (997 * rOut * (rIn * 1000)) + x * 997 * rOut * (y * 997) :=
          Nat.add_le_add_right key _
      _ = y * 997 * rOut * (rIn * 1000 + x * 997) := by ring
  have h2 : x * 997 * rOut / (rIn * 1000 + x * 997) * (rIn * 1000 + y * 997)
        * (rIn * 1000 + x * 997)
      ≤ y * 997 * rOut * (rIn * 1000 + x * 997) := by
    calc x * 997 * rOut / (rIn * 1000 + x * 997) * (rIn * 1000 + y * 997)
          * (rIn * 1000 + x * 997)
        = x * 997 * rOut / (rIn * 1000 + x * 997) * (rIn * 1000 + x * 997)
          * (rIn * 1000 + y * 997) := by ring
      _ ≤ x * 997 * rOut * (rIn * 1000 + y * 997) := Nat.mul_le_mul h1 (Nat.le_refl _)
      _ ≤ y * 997 * rOut * (rIn * 1000 + x * 997) := hcross
  exact Nat.le_of_mul_le_mul_right h2 hD1

/-- On positive arguments `getAmountOut` succeeds with the division value. -/
lemma getAmountOut_ok (a rIn rOut : Nat) (ha : 0 < a) (hin : 0 < rIn) (hout : 0 < rOut) :
    getAmountOut a rIn rOut = .ok (getAmountOutVal a rIn rOut) := by
  simp [getAmountOut, Nat.pos_iff_ne_zero.mp ha, Nat.pos_iff_ne_zero.mp hin,
    Nat.pos_iff_ne_zero.mp hout]

/-! ### Inversion lemmas for successful operations -/

/-- Inversion of a successful `addLiquidity`: the guards passed and the
result state credits the pool at the ordered key and the caller record. -/
lemma addLiquidity_ok_shape (s : DEXState) (tA tB a b c : Nat) (s' : DEXState)
    (ev : List Event) (h : addLiquidity s tA tB a b c = .ok (s', ev)) :
    s.paused = false ∧ a ≠ 0 ∧ b ≠ 0 ∧
    s'.liquidityPools = (fun A B =>
      if A = tA ∧ B = tB then
        ⟨(s.liquidityPools tA tB).tokenAAmount + a,
         (s.liquidityPools tA tB).tokenBAmount + b,
         (s.liquidityPools tA tB).totalLiquidity + (a + b)⟩
      else s.liquidityPools A B) ∧
    ev = [Event.liquidityAdded tA tB a b] := by
  simp only [addLiquidity] at h
  split_ifs at h with h1 h2 h3 h4
  injection h with h'
  simp only [Prod.mk.injEq] at h'
  obtain ⟨hs, hev⟩ := h'
  subst hs; subst hev
  push_neg at h2
  refine ⟨by simpa using h1, h2.1, h2.2, rfl, rfl⟩

/-- Inversion of a successful `swapTokens`: the guards passed, and the
result credits the in-reserve with `amountIn - fee`, debits the
out-reserve by the quoted output, keeps `totalLiquidity` and the share
records, moves the balances, and emits one `TokensSwapped` event. -/
lemma swapTokens_ok_shape (s : DEXState) (tIn tOut aIn c : Nat) (s' : DEXState)
    (ev : List Event) (h : swapTokens s tIn tOut aIn c = .ok (s', ev)) :
    s.paused = false ∧ aIn ≠ 0 ∧
    (s.liquidityPools tIn tOut).tokenAAmount ≠ 0 ∧
    (s.liquidityPools tIn tOut).tokenBAmount ≠ 0 ∧
    getAmountOutVal aIn (s.liquidityPools tIn tOut).tokenAAmount
        (s.liquidityPools tIn tOut).tokenBAmount ≠ 0 ∧
    aIn * s.feePercentage / 100 ≤ aIn ∧
    aIn ≤ s.balances tIn c ∧
    getAmountOutVal aIn (s.liquidityPools tIn tOut).tokenAAmount
        (s.liquidityPools tIn tOut).tokenBAmount
      ≤ (s.liquidityPools tIn tOut).tokenBAmount ∧
    s'.liquidityPools = (fun a b =>
      if a = tIn ∧ b = tOut then
        ⟨(s.liquidityPools tIn tOut).tokenAAmount + (aIn - aIn * s.feePercentage / 100),
         (s.liquidityPools tIn tOut).tokenBAmount -
           getAmountOutVal aIn (s.liquidityPools tIn tOut).tokenAAmount
             (s.liquidityPools tIn tOut).tokenBAmount,
         (s.liquidityPools tIn tOut).totalLiquidity⟩
      else s.liquidityPools a b) ∧
    s'.balances = erc20Move (erc20Move s.balances tIn c dexAddr aIn) tOut dexAddr c
        (getAmountOutVal aIn (s.liquidityPools tIn tOut).tokenAAmount
          (s.liquidityPools tIn tOut).tokenBAmount) ∧
    s'.userLiquidity = s.userLiquidity ∧
    s'.feePercentage = s.feePercentage ∧
    ev = [Event.tokensSwapped tIn tOut aIn
      (getAmountOutVal aIn (s.liquidityPools tIn tOut).tokenAAmount
        (s.liquidityPools tIn tOut).tokenBAmount)] := by
  simp only [swapTokens] at h
  split_ifs at h with h1 h2 h3 h4 h5 h6 h7 h8
  injection h with h'
  simp only [Prod.mk.injEq] at h'
  obtain ⟨hs, hev⟩ := h'
  subst hs; subst hev
  push_neg at h3
  refine ⟨by simpa using h1, h2, h3.1, h3.2, h4, by omega, by omega, by omega,
    rfl, rfl, rfl, rfl, rfl⟩

/-- Inversion of a successful `removeLiquidity`: the guards passed and
the result debits the pool at the ordered key and the caller record. -/
lemma removeLiquidity_ok_shape (s : DEXState) (tA tB a b c : Nat) (s' : DEXState)
    (ev : List Event) (h : removeLiquidity s tA tB a b c = .ok (s', ev)) :
    s.paused = false ∧ a ≠ 0 ∧ b ≠ 0 ∧
    a ≤ (s.liquidityPools tA tB).tokenAAmount ∧
    b ≤ (s.liquidityPools tA tB).tokenBAmount ∧
    a + b ≤ (s.liquidityPools tA tB).totalLiquidity ∧
    a + b ≤ s.userLiquidity tA tB c ∧
    s'.liquidityPools = (fun A B =>
      if A = tA ∧ B = tB then
        ⟨(s.liquidityPools tA tB).tokenAAmount - a,
         (s.liquidityPools tA tB).tokenBAmount - b,
         (s.liquidityPools tA tB).totalLiquidity - (a + b)⟩
      else s.liquidityPools A B) ∧
    ev = [Event.liquidityRemoved tA tB a b] := by
  simp only [removeLiquidity] at h
  split_ifs at h with h1 h2 h3 h4 h5 h6 h7
  injection h with h'
  simp only [Prod.mk.injEq] at h'
  obtain ⟨hs, hev⟩ := h'
  subst hs; subst hev
  push_neg at h2 h3
  exact ⟨by simpa using h1, h2.1, h2.2, h3.1, h3.2, by omega, by omega, rfl, rfl⟩

/-! ### Claim theorems -/

/-- C1: for every `amountIn > 0` and reserves `reserveIn > 0`,
`reserveOut > 0`, `quote` returns
`floor((amountIn * 997) * reserveOut / (reserveIn * 1000 + amountIn * 997))`;
it fails if `amountIn` is zero or either reserve is zero; and
`quote(100, 1000, 1000) = 90`. -/
theorem C1_quote_formula (a rIn rOut : Nat) :
    (0 < a → 0 < rIn → 0 < rOut →
      getAmountOut a rIn rOut = .ok (a * 997 * rOut / (rIn * 1000 + a * 997))) ∧
    (a = 0 ∨ rIn = 0 ∨ rOut = 0 → (errorOf (getAmountOut a rIn rOut)).isSome = true) ∧
    getAmountOut 100 1000 1000 = .ok 90 := by
  refine ⟨fun ha hin hout => ?_, fun h => ?_, rfl⟩
  · rw [getAmountOut_ok a rIn rOut ha hin hout]; rfl
  · rcases h with h | h | h
    · simp [getAmountOut, errorOf, h]
    · subst h; by_cases ha : a = 0 <;> simp [getAmountOut, errorOf, ha]
    · subst h; by_cases ha : a = 0 <;> by_cases hb : rIn = 0 <;>
        simp [getAmountOut, errorOf, ha, hb]

/-- Witness for C1 at `amountIn = 100`, reserves `(1000, 1000)`, and at the
zero-input failure case. -/
theorem C1_quote_formula_witness :
    getAmountOut 100 1000 1000 = .ok (100 * 997 * 1000 / (1000 * 1000 + 100 * 997)) ∧
    (errorOf (getAmountOut 0 5 5)).isSome = true :=
  ⟨(C1_quote_formula 100 1000 1000).1 (by decide) (by decide) (by decide),
   (C1_quote_formula 0 5 5).2.1 (Or.inl rfl)⟩

/-- C7: for fixed positive reserves, `quote` is monotone in the input
amount (`0 < x ≤ y` gives `quote x ≤ quote y`) and every quoted output is
strictly less than `reserveOut`. -/
theorem C7_quote_monotone_bounded (x y rIn rOut : Nat) (hx : 0 < x) (hxy : x ≤ y)
    (hin : 0 < rIn) (hout : 0 < rOut) :
    getAmountOut x rIn rOut = .ok (getAmountOutVal x rIn rOut) ∧
    getAmountOut y rIn rOut = .ok (getAmountOutVal y rIn rOut) ∧
    getAmountOutVal x rIn rOut ≤ getAmountOutVal y rIn rOut ∧
    getAmountOutVal x rIn rOut < rOut ∧
    getAmountOutVal y rIn rOut < rOut :=
  ⟨getAmountOut_ok x rIn rOut hx hin hout,
   getAmountOut_ok y rIn rOut (lt_of_lt_of_le hx hxy) hin hout,
   getAmountOutVal_mono x y rIn rOut hxy hin,
   getAmountOutVal_lt x rIn rOut hin hout,
   getAmountOutVal_lt y rIn rOut hin hout⟩

/-- Witness for C7 at inputs `100 ≤ 200` against reserves `(1000, 1000)`. -/
theorem C7_quote_monotone_bounded_witness :
    getAmountOut 100 1000 1000 = .ok (getAmountOutVal 100 1000 1000) ∧
    getAmountOut 200 1000 1000 = .ok (getAmountOutVal 200 1000 1000) ∧
    getAmountOutVal 100 1000 1000 ≤ getAmountOutVal 200 1000 1000 ∧
    getAmountOutVal 100 1000 1000 < 1000 ∧
    getAmountOutVal 200 1000 1000 < 1000 :=
  C7_quote_monotone_bounded 100 200 1000 1000 (by decide) (by decide) (by decide) (by decide)

/-- C9: a swap with `amountIn = 0` on an unpaused contract fails with
`InvalidInput`, and every failing operation is atomic and silent: the
post-state equals the pre-state and no event is emitted. -/
theorem C9_failed_ops_atomic (s : DEXState) (tokenIn tokenOut caller : Nat) :
    (s.paused = false →
      errorOf (applyOp s (.swap tokenIn tokenOut 0 caller)) = some .invalidInput) ∧
    (∀ op : Op, (errorOf (applyOp s op)).isSome = true → execOp s op = (s, [])) := by
  constructor
  · intro hp
    simp [applyOp, swapTokens, hp, errorOf]
  · intro op h
    cases happ : applyOp s op with
    | ok r => rw [happ] at h; simp [errorOf] at h
    | error e => simp [execOp, happ]

/-- Witness for C9: the zero-amount swap on the fresh contract fails with
`InvalidInput` and leaves the state untouched with no events. -/
theorem C9_failed_ops_atomic_witness :
    errorOf (applyOp (initState bal1000) (.swap 1 2 0 7)) = some .invalidInput ∧
    execOp (initState bal1000) (.swap 1 2 0 7) = (initState bal1000, []) :=
  ⟨(C9_failed_ops_atomic (initState bal1000) 1 2 7).1 rfl,
   (C9_failed_ops_atomic (initState bal1000) 1 2 7).2 (.swap 1 2 0 7) (by decide)⟩

/-- C2: every successful swap prices the full `amountIn` through `quote`
against the pre-swap reserves, skims the separate fee
`amountIn * feePercentage / 100`, pulls the full `amountIn` from the
caller, pays `amountOut` to the caller, and records
`reserveIn += amountIn - fee`, `reserveOut -= amountOut` with
`totalLiquidity` unchanged — so the skim fee and the 0.3% fee inside
`quote` are both charged against the same trade. -/
theorem C2_swap_effect (s : DEXState) (tIn tOut aIn c : Nat) (s' : DEXState)
    (ev : List Event) (hio : tIn ≠ tOut) (hc : c ≠ dexAddr)
    (h : swapTokens s tIn tOut aIn c = .ok (s', ev)) :
    getAmountOut aIn (s.liquidityPools tIn tOut).tokenAAmount
        (s.liquidityPools tIn tOut).tokenBAmount
      = .ok (getAmountOutVal aIn (s.liquidityPools tIn tOut).tokenAAmount
          (s.liquidityPools tIn tOut).tokenBAmount) ∧
    s'.liquidityPools tIn tOut =
      ⟨(s.liquidityPools tIn tOut).tokenAAmount + (aIn - aIn * s.feePercentage / 100),
       (s.liquidityPools tIn tOut).tokenBAmount -
         getAmountOutVal aIn (s.liquidityPools tIn tOut).tokenAAmount
           (s.liquidityPools tIn tOut).tokenBAmount,
       (s.liquidityPools tIn tOut).totalLiquidity⟩ ∧
    aIn ≤ s.balances tIn c ∧
    s'.balances tIn c = s.balances tIn c - aIn ∧
    s'.balances tIn dexAddr = s.balances tIn dexAddr + aIn ∧
    s'.balances tOut c = s.balances tOut c +
      getAmountOutVal aIn (s.liquidityPools tIn tOut).tokenAAmount
        (s.liquidityPools tIn tOut).tokenBAmount ∧
    ev = [Event.tokensSwapped tIn tOut aIn
      (getAmountOutVal aIn (s.liquidityPools tIn tOut).tokenAAmount
        (s.liquidityPools tIn tOut).tokenBAmount)] := by
  obtain ⟨hp, ha, hA, hB, hout, hfee, hbal, hle, hpools, hbals, hul, hfp, hev⟩ :=
    swapTokens_ok_shape s tIn tOut aIn c s' ev h
  refine ⟨getAmountOut_ok _ _ _ (Nat.pos_of_ne_zero ha) (Nat.pos_of_ne_zero hA)
    (Nat.pos_of_ne_zero hB), ?_, hbal, ?_, ?_, ?_, hev⟩
  · rw [hpools]; simp
  · rw [hbals]; simp [erc20Move, hio, hc, Ne.symm hio, Ne.symm hc]
  · rw [hbals]; simp [erc20Move, hio, hc, Ne.symm hio, Ne.symm hc]
  · rw [hbals]; simp [erc20Move, hio, hc, Ne.symm hio, Ne.symm hc]

/-- Witness for C2: on the state after a deposit of `(500, 500)` into
pair `(1, 2)`, the swap of `amountIn = 100` by holder 7 succeeds and has
all the effects stated by the claim theorem. -/
theorem C2_swap_effect_witness :
    getAmountOut 100 (sAfterDeposit.liquidityPools 1 2).tokenAAmount
        (sAfterDeposit.liquidityPools 1 2).tokenBAmount
      = .ok (getAmountOutVal 100 (sAfterDeposit.liquidityPools 1 2).tokenAAmount
          (sAfterDeposit.liquidityPools 1 2).tokenBAmount) ∧
    (execOp sAfterDeposit (.swap 1 2 100 7)).fst.liquidityPools 1 2 =
      ⟨(sAfterDeposit.liquidityPools 1 2).tokenAAmount +
         (100 - 100 * sAfterDeposit.feePercentage / 100),
       (sAfterDeposit.liquidityPools 1 2).tokenBAmount -
         getAmountOutVal 100 (sAfterDeposit.liquidityPools 1 2).tokenAAmount
           (sAfterDeposit.liquidityPools 1 2).tokenBAmount,
       (sAfterDeposit.liquidityPools 1 2).totalLiquidity⟩ ∧
    100 ≤ sAfterDeposit.balances 1 7 ∧
    (execOp sAfterDeposit (.swap 1 2 100 7)).fst.balances 1 7 =
      sAfterDeposit.balances 1 7 - 100 ∧
    (execOp sAfterDeposit (.swap 1 2 100 7)).fst.balances 1 dexAddr =
      sAfterDeposit.balances 1 dexAddr + 100 ∧
    (execOp sAfterDeposit (.swap 1 2 100 7)).fst.balances 2 7 =
      sAfterDeposit.balances 2 7 +
        getAmountOutVal 100 (sAfterDeposit.liquidityPools 1 2).tokenAAmount
          (sAfterDeposit.liquidityPools 1 2).tokenBAmount ∧
    (execOp sAfterDeposit (.swap 1 2 100 7)).snd = [Event.tokensSwapped 1 2 100
      (getAmountOutVal 100 (sAfterDeposit.liquidityPools 1 2).tokenAAmount
        (sAfterDeposit.liquidityPools 1 2).tokenBAmount)] :=
  C2_swap_effect sAfterDeposit 1 2 100 7
    (execOp sAfterDeposit (.swap 1 2 100 7)).fst
    (execOp sAfterDeposit (.swap 1 2 100 7)).snd
    (by decide) (by decide) (by rfl)

/-- C6 counterexample: after `addLiquidity` addressed with the pair
`(1, 2)`, the pool read through the reversed pair `(2, 1)` is still the
all-zero pool, and a swap addressed with `(2, 1)` fails with
`PoolNotFound`: the two orientations do not share one pool state. -/
theorem C6_unordered_counterexample :
    (execOps (initState bal1000) [.deposit 1 2 10 10 7]).liquidityPools 1 2 = ⟨10, 10, 20⟩ ∧
    (execOps (initState bal1000) [.deposit 1 2 10 10 7]).liquidityPools 2 1 = ⟨0, 0, 0⟩ ∧
    errorOf (applyOp (execOps (initState bal1000) [.deposit 1 2 10 10 7]) (.swap 2 1 5 7))
      = some .poolNotFound :=
  ⟨by decide, by decide, by decide⟩

/-- C6 amended: pools are keyed by the ORDERED pair of asset identifiers:
a successful deposit addressed with `(A, B)` credits exactly the pool
stored at key `(A, B)` and leaves the pool at the reversed key `(B, A)`
unchanged (for `A ≠ B`). -/
theorem C6_ordered_pair_keying (s : DEXState) (op : Op) (A B : Addr)
    (hkey : op.pairKey = (A, B)) (hAB : A ≠ B) :
    (execOp s op).fst.liquidityPools B A = s.liquidityPools B A ∧
    (∀ X Y, ¬(X = A ∧ Y = B) →
      (execOp s op).fst.liquidityPools X Y = s.liquidityPools X Y) ∧
    (∀ a b c s' ev, op = .deposit A B a b c → applyOp s op = .ok (s', ev) →
      s'.liquidityPools A B =
        ⟨(s.liquidityPools A B).tokenAAmount + a,
         (s.liquidityPools A B).tokenBAmount + b,
         (s.liquidityPools A B).totalLiquidity + (a + b)⟩) ∧
    (∀ a b c s' ev, op = .withdraw A B a b c → applyOp s op = .ok (s', ev) →
      s'.liquidityPools A B =
        ⟨(s.liquidityPools A B).tokenAAmount - a,
         (s.liquidityPools A B).tokenBAmount - b,
         (s.liquidityPools A B).totalLiquidity - (a + b)⟩) ∧
    (∀ aIn c s' ev, op = .swap A B aIn c → applyOp s op = .ok (s', ev) →
      s'.liquidityPools A B =
        ⟨(s.liquidityPools A B).tokenAAmount + (aIn - aIn * s.feePercentage / 100),
         (s.liquidityPools A B).tokenBAmount -
           getAmountOutVal aIn (s.liquidityPools A B).tokenAAmount
             (s.liquidityPools A B).tokenBAmount,
         (s.liquidityPools A B).totalLiquidity⟩) := by
  have hframe : ∀ X Y, ¬(X = A ∧ Y = B) →
      (execOp s op).fst.liquidityPools X Y = s.liquidityPools X Y := by
    intro X Y hXY
    cases happ : applyOp s op with
    | error e => simp [execOp, happ]
    | ok r =>
      obtain ⟨s1, ev1⟩ := r
      simp only [execOp, happ]
      cases op with
      | deposit tA tB a b c =>
        simp only [Op.pairKey, Prod.mk.injEq] at hkey
        obtain ⟨h1, h2⟩ := hkey; subst h1; subst h2
        obtain ⟨-, -, -, hpools, -⟩ :=
          addLiquidity_ok_shape s tA tB a b c s1 ev1 (by simpa [applyOp] using happ)
        rw [hpools]; simp [hXY]
      | withdraw tA tB a b c =>
        simp only [Op.pairKey, Prod.mk.injEq] at hkey
        obtain ⟨h1, h2⟩ := hkey; subst h1; subst h2
        obtain ⟨-, -, -, -, -, -, -, hpools, -⟩ :=
          removeLiquidity_ok_shape s tA tB a b c s1 ev1 (by simpa [applyOp] using happ)
        rw [hpools]; simp [hXY]
      | swap tIn tOut aIn c =>
        simp only [Op.pairKey, Prod.mk.injEq] at hkey
        obtain ⟨h1, h2⟩ := hkey; subst h1; subst h2
        obtain ⟨-, -, -, -, -, -, -, -, hpools, -⟩ :=
          swapTokens_ok_shape s tIn tOut aIn c s1 ev1 (by simpa [applyOp] using happ)
        rw [hpools]; simp [hXY]
  refine ⟨hframe B A (fun hba => hAB hba.2), hframe, ?_, ?_, ?_⟩
  · intro a b c s' ev hop happ
    subst hop
    obtain ⟨-, -, -, hpools, -⟩ :=
      addLiquidity_ok_shape s A B a b c s' ev (by simpa [applyOp] using happ)
    rw [hpools]; simp
  · intro a b c s' ev hop happ
    subst hop
    obtain ⟨-, -, -, -, -, -, -, hpools, -⟩ :=
      removeLiquidity_ok_shape s A B a b c s' ev (by simpa [applyOp] using happ)
    rw [hpools]; simp
  · intro aIn c s' ev hop happ
    subst hop
    obtain ⟨-, -, -, -, -, -, -, -, hpools, -⟩ :=
      swapTokens_ok_shape s A B aIn c s' ev (by simpa [applyOp] using happ)
    rw [hpools]; simp

/-- Witness for C6 amended, exercising all three conjunct families at
concrete inputs: the deposit of `(10, 10)` addressed with `(1, 2)` leaves
pools `(2, 1)` and `(3, 4)` as they were and credits exactly pool
`(1, 2)`; a successful swap addressed with `(1, 2)` on the funded state
also leaves pool `(2, 1)` unchanged. -/
theorem C6_ordered_pair_keying_witness :
    (execOp (initState bal1000) (.deposit 1 2 10 10 7)).fst.liquidityPools 2 1
      = (initState bal1000).liquidityPools 2 1 ∧
    (execOp (initState bal1000) (.deposit 1 2 10 10 7)).fst.liquidityPools 3 4
      = (initState bal1000).liquidityPools 3 4 ∧
    (execOp (initState bal1000) (.deposit 1 2 10 10 7)).fst.liquidityPools 1 2 =
      ⟨((initState bal1000).liquidityPools 1 2).tokenAAmount + 10,
       ((initState bal1000).liquidityPools 1 2).tokenBAmount + 10,
       ((initState bal1000).liquidityPools 1 2).totalLiquidity + (10 + 10)⟩ ∧
    (execOp sAfterDeposit (.swap 1 2 100 7)).fst.liquidityPools 2 1
      = sAfterDeposit.liquidityPools 2 1 ∧
    (execOp sAfterDeposit (.swap 1 2 100 7)).fst.liquidityPools 1 2 =
      ⟨(sAfterDeposit.liquidityPools 1 2).tokenAAmount +
         (100 - 100 * sAfterDeposit.feePercentage / 100),
       (sAfterDeposit.liquidityPools 1 2).tokenBAmount -
         getAmountOutVal 100 (sAfterDeposit.liquidityPools 1 2).tokenAAmount
           (sAfterDeposit.liquidityPools 1 2).tokenBAmount,
       (sAfterDeposit.liquidityPools 1 2).totalLiquidity⟩ := by
  obtain ⟨d1, d2, d3, -, -⟩ :=
    C6_ordered_pair_keying (initState bal1000) (.deposit 1 2 10 10 7) 1 2 rfl (by decide)
  obtain ⟨s1, -, -, -, s5⟩ :=
    C6_ordered_pair_keying sAfterDeposit (.swap 1 2 100 7) 1 2 rfl (by decide)
  exact ⟨d1, d2 3 4 (by decide),
    d3 10 10 7 (execOp (initState bal1000) (.deposit 1 2 10 10 7)).fst
      (execOp (initState bal1000) (.deposit 1 2 10 10 7)).snd rfl (by rfl),
    s1,
    s5 100 7 (execOp sAfterDeposit (.swap 1 2 100 7)).fst
      (execOp sAfterDeposit (.swap 1 2 100 7)).snd rfl (by rfl)⟩

/-- C3 counterexample: starting from the empty pool, `addLiquidity(10, 10)`
followed by `removeLiquidity(10, 5)` by the same holder succeeds and leaves
the pool at `reserveA = 0`, `reserveB = 5`, `totalShares = 5`, violating
`reserveA == 0 iff reserveB == 0 iff totalShares == 0`. -/
theorem C3_empty_pool_inv_counterexample :
    (execOps (initState bal1000) [.deposit 1 2 10 10 7, .withdraw 1 2 10 5 7]).liquidityPools 1 2
      = ⟨0, 5, 5⟩ ∧
    ¬ poolInv ((execOps (initState bal1000)
        [.deposit 1 2 10 10 7, .withdraw 1 2 10 5 7]).liquidityPools 1 2) :=
  ⟨by decide, by decide⟩

/-- A successful or rolled-back deposit or swap preserves the emptiness
invariant of every pool. -/
lemma allPoolsInv_execOp (s : DEXState) (op : Op) (hop : op.isWithdraw = false)
    (hinv : AllPoolsInv s) : AllPoolsInv (execOp s op).fst := by
  cases happ : applyOp s op with
  | error e => simpa [execOp, happ] using hinv
  | ok r =>
    obtain ⟨s', ev⟩ := r
    cases op with
    | withdraw tA tB a b c => simp [Op.isWithdraw] at hop
    | deposit tA tB a b c =>
      obtain ⟨-, ha, hb, hpools, -⟩ :=
        addLiquidity_ok_shape s tA tB a b c s' ev (by simpa [applyOp] using happ)
      intro A B
      simp only [execOp, happ, hpools]
      by_cases hAB : A = tA ∧ B = tB
      · have hpool := hinv tA tB
        unfold poolInv at hpool ⊢
        simp only [hAB, and_self, if_true]
        omega
      · simpa [hAB] using hinv A B
    | swap tIn tOut aIn c =>
      obtain ⟨-, -, hA, hB, -, -, -, -, hpools, -⟩ :=
        swapTokens_ok_shape s tIn tOut aIn c s' ev (by simpa [applyOp] using happ)
      intro A B
      simp only [execOp, happ, hpools]
      by_cases hAB : A = tIn ∧ B = tOut
      · have hlt : getAmountOutVal aIn (s.liquidityPools tIn tOut).tokenAAmount
            (s.liquidityPools tIn tOut).tokenBAmount
            < (s.liquidityPools tIn tOut).tokenBAmount :=
          getAmountOutVal_lt _ _ _ (Nat.pos_of_ne_zero hA) (Nat.pos_of_ne_zero hB)
        have hpool := hinv tIn tOut
        unfold poolInv at hpool ⊢
        simp only [hAB, and_self, if_true]
        omega
      · simpa [hAB] using hinv A B

/-- Any withdrawal-free operation sequence preserves the emptiness
invariant of every pool. -/
lemma allPoolsInv_execOps (s : DEXState) (ops : List Op)
    (hops : ∀ op ∈ ops, op.isWithdraw = false) (hinv : AllPoolsInv s) :
    AllPoolsInv (execOps s ops) := by
  induction ops generalizing s with
  | nil => exact hinv
  | cons op rest ih =>
    simp only [execOps, List.foldl_cons]
    exact ih (execOp s op).fst
      (fun o ho => hops o (List.mem_cons_of_mem _ ho))
      (allPoolsInv_execOp s op (hops op (List.mem_cons_self _ _)) hinv)

/-- C3 amended: for every sequence of deposits and swaps (no withdrawals)
starting from the empty pools, every pool satisfies
`reserveA == 0 iff reserveB == 0 iff totalShares == 0` after each
operation; `removeLiquidity` can break the invariant (see the
counterexample). -/
theorem C3_empty_pool_inv_no_withdraw (balances : Addr → Addr → Nat) (ops : List Op)
    (hops : ∀ op ∈ ops, op.isWithdraw = false) :
    AllPoolsInv (execOps (initState balances) ops) := by
  refine allPoolsInv_execOps _ ops hops ?_
  intro A B
  exact ⟨Iff.rfl, Iff.rfl⟩

/-- Witness for C3 amended: a deposit followed by a swap keeps every pool
of the resulting state inside the invariant. -/
theorem C3_empty_pool_inv_no_withdraw_witness :
    AllPoolsInv (execOps (initState bal1000) [.deposit 1 2 10 10 7, .swap 1 2 100 7]) :=
  C3_empty_pool_inv_no_withdraw bal1000 [.deposit 1 2 10 10 7, .swap 1 2 100 7]
    (by decide)

/-- C4: the code violates the share-sum invariant: after `deposit(3, 5)`
followed by `claimRewards(3)` on a fresh `LiquidityPool`, every holder's
recorded share balance is zero (so the sum of holder shares over any
range is zero) while `totalSupply` is still `5`, because `claimRewards`
zeroes the caller's balance without decreasing `totalSupply`. -/
theorem C4_claimRewards_breaks_share_sum :
    (execLPOps (lpInit (fun _ => 1000)) [.depositOp 3 5, .claimOp 3]).totalSupply = 5 ∧
    sharesSum (execLPOps (lpInit (fun _ => 1000)) [.depositOp 3 5, .claimOp 3]) 100 = 0 ∧
    ∀ u : Addr, (execLPOps (lpInit (fun _ => 1000)) [.depositOp 3 5, .claimOp 3]).balances u = 0 := by
  refine ⟨by decide, by decide, fun u => ?_⟩
  by_cases h : u = 3 <;>
    simp [execLPOps, execLPOp, applyLPOp, lpDeposit, lpClaimRewards, lpInit, h, tokenMove]

/-- A successful fee-bearing transfer: with the contract unpaused, both
endpoints non-null and distinct, the fee no larger than the amount, and
the sender funded, the hook routes `amount - fee` to the recipient and
`fee` to the contract and accrues the fee. -/
lemma beforeTokenTransfer_ok (s : PiState) (src dst amount : Nat)
    (hp : s.paused = false) (hsrc : src ≠ nullAddr) (hdst : dst ≠ nullAddr)
    (hsd : src ≠ dst) (hfee : amount * s.transactionFee / 10000 ≤ amount)
    (hbal : amount ≤ s.balances src) :
    beforeTokenTransfer s src dst amount = .ok
      ({ s with
          balances := tokenMove (tokenMove s.balances src dst
              (amount - amount * s.transactionFee / 10000)) src piAddr
            (amount * s.transactionFee / 10000)
          totalFeesCollected := s.totalFeesCollected + amount * s.transactionFee / 10000 },
        [PiEvent.feesCollected (amount * s.transactionFee / 10000)]) := by
  have hb1 : tokenMove s.balances src dst (amount - amount * s.transactionFee / 10000) src
      = s.balances src - (amount - amount * s.transactionFee / 10000) := by
    simp [tokenMove, hsd]
  simp only [beforeTokenTransfer]
  rw [if_neg (show ¬(s.paused = true) by simp [hp]), if_pos ⟨hsrc, hdst⟩,
    if_neg (show ¬(amount < amount * s.transactionFee / 10000) by omega),
    if_neg (show ¬(s.balances src < amount - amount * s.transactionFee / 10000) by omega),
    if_neg (by rw [hb1]; omega)]

/-- C5: a transfer of `amount` between two non-null holders computes
`fee = amount * transactionFee / 10000`, routes `amount - fee` to the
recipient and `fee` to the contract's own custody, increases
`totalFeesCollected` by `fee`, and emits exactly one `FeesCollected{fee}`
event; mints and burns accrue no fee and emit no `FeesCollected`. -/
theorem C5_transfer_fee (s : PiState) (src dst amount : Nat)
    (hp : s.paused = false) (hsrc : src ≠ nullAddr) (hdst : dst ≠ nullAddr)
    (hsd : src ≠ dst) (hsc : src ≠ piAddr) (hdc : dst ≠ piAddr)
    (hfee : amount * s.transactionFee / 10000 ≤ amount)
    (hbal : amount ≤ s.balances src) :
    (errorOf (applyPiOp s (.transferOp src dst amount))).isSome = false ∧
    (execPiOp s (.transferOp src dst amount)).fst.balances dst
      = s.balances dst + (amount - amount * s.transactionFee / 10000) ∧
    (execPiOp s (.transferOp src dst amount)).fst.balances piAddr
      = s.balances piAddr + amount * s.transactionFee / 10000 ∧
    (execPiOp s (.transferOp src dst amount)).fst.balances src
      = s.balances src - amount ∧
    (execPiOp s (.transferOp src dst amount)).fst.totalFeesCollected
      = s.totalFeesCollected + amount * s.transactionFee / 10000 ∧
    (execPiOp s (.transferOp src dst amount)).snd
      = [PiEvent.feesCollected (amount * s.transactionFee / 10000)] ∧
    (∀ dst2 amt2, (execPiOp s (.mintOp s.owner dst2 amt2)).fst.totalFeesCollected
        = s.totalFeesCollected ∧
      ∀ f, PiEvent.feesCollected f ∉ (execPiOp s (.mintOp s.owner dst2 amt2)).snd) ∧
    (∀ amt2, (execPiOp s (.burnOp s.owner amt2)).fst.totalFeesCollected
        = s.totalFeesCollected ∧
      ∀ f, PiEvent.feesCollected f ∉ (execPiOp s (.burnOp s.owner amt2)).snd) := by
  have hokk := beforeTokenTransfer_ok s src dst amount hp hsrc hdst hsd hfee hbal
  have happ : applyPiOp s (.transferOp src dst amount)
      = beforeTokenTransfer s src dst amount := rfl
  refine ⟨?_, ?_, ?_, ?_, ?_, ?_, ?_, ?_⟩
  · rw [happ, hokk]; rfl
  · simp only [execPiOp, happ, hokk]
    simp [tokenMove, hsd, hdc, Ne.symm hsd]
  · simp only [execPiOp, happ, hokk]
    simp [tokenMove, Ne.symm hsc, Ne.symm hdc]
  · simp only [execPiOp, happ, hokk]
    simp only [tokenMove]
    simp [hsc, hsd]
    omega
  · simp only [execPiOp, happ, hokk]
  · simp only [execPiOp, happ, hokk]
  · intro dst2 amt2
    constructor
    · simp [execPiOp, applyPiOp, mintTokens, beforeTokenTransfer, hp, nullAddr]
    · intro f
      simp [execPiOp, applyPiOp, mintTokens, beforeTokenTransfer, hp, nullAddr]
  · intro amt2
    by_cases hb : s.balances s.owner < amt2
    · constructor
      · simp [execPiOp, applyPiOp, burnTokens, beforeTokenTransfer, hp, nullAddr, hb]
      · intro f
        simp [execPiOp, applyPiOp, burnTokens, beforeTokenTransfer, hp, nullAddr, hb]
    · constructor
      · simp [execPiOp, applyPiOp, burnTokens, beforeTokenTransfer, hp, nullAddr, hb]
      · intro f
        simp [execPiOp, applyPiOp, burnTokens, beforeTokenTransfer, hp, nullAddr, hb]

/-- Witness for C5: on the concrete state `piS0`, the transfer of 200
from holder 2 to holder 3 routes 198 to the recipient and 2 to the
contract, accrues the 2-unit fee with one event, and a mint and a burn
leave the fee accumulator untouched with no `FeesCollected` event. -/
theorem C5_transfer_fee_witness :
    (errorOf (applyPiOp piS0 (.transferOp 2 3 200))).isSome = false ∧
    (execPiOp piS0 (.transferOp 2 3 200)).fst.balances 3
      = piS0.balances 3 + (200 - 200 * piS0.transactionFee / 10000) ∧
    (execPiOp piS0 (.transferOp 2 3 200)).fst.balances piAddr
      = piS0.balances piAddr + 200 * piS0.transactionFee / 10000 ∧
    (execPiOp piS0 (.transferOp 2 3 200)).fst.balances 2 = piS0.balances 2 - 200 ∧
    (execPiOp piS0 (.transferOp 2 3 200)).fst.totalFeesCollected
      = piS0.totalFeesCollected + 200 * piS0.transactionFee / 10000 ∧
    (execPiOp piS0 (.transferOp 2 3 200)).snd
      = [PiEvent.feesCollected (200 * piS0.transactionFee / 10000)] ∧
    (execPiOp piS0 (.mintOp piS0.owner 4 50)).fst.totalFeesCollected
      = piS0.totalFeesCollected ∧
    (execPiOp piS0 (.burnOp piS0.owner 50)).fst.totalFeesCollected
      = piS0.totalFeesCollected := by
  obtain ⟨w1, w2, w3, w4, w5, w6, w7, w8⟩ :=
    C5_transfer_fee piS0 2 3 200 rfl (by decide) (by decide) (by decide) (by decide)
      (by decide) (by decide) (by decide)
  exact ⟨w1, w2, w3, w4, w5, w6, (w7 4 50).1, (w8 50).1⟩

/-- C8 counterexample: the claim also cites `DEX.withdrawFees`
(part_000), which has no accrued-fee accumulator at all and pays the
caller the contract's ENTIRE balance of the given token. On the concrete
trace `sTrace` the pool records 599 of token 1 as reserve and only 1
token is accrued skim fee, yet `withdrawFees(token 1)` pays the owner
all 600, emits `FeesWithdrawn{1, 600}`, and leaves the pool still
recording 599 of reserve against 0 custody — it neither pays "exactly
the accrued fees" nor leaves the rest of the state's backing intact. -/
theorem C8_dex_withdrawFees_counterexample :
    (sTrace.liquidityPools 1 2).tokenAAmount = 599 ∧
    sTrace.balances 1 dexAddr = 600 ∧
    sTrace.balances 1 dexAddr - (sTrace.liquidityPools 1 2).tokenAAmount = 1 ∧
    errorOf (dexWithdrawFees sTrace 1 0) = none ∧
    (execDexWithdraw sTrace 1 0).fst.balances 1 0 = 1600 ∧
    (execDexWithdraw sTrace 1 0).fst.balances 1 dexAddr = 0 ∧
    ((execDexWithdraw sTrace 1 0).fst.liquidityPools 1 2).tokenAAmount = 599 ∧
    (execDexWithdraw sTrace 1 0).snd = [Event.feesWithdrawn 1 600] :=
  ⟨by decide, by decide, by decide, by decide, by decide, by decide, by decide, by decide⟩

/-- C8 amended: the repository has two `withdrawFees` variants.
`PiCoin.withdrawFees`, called by the owner, pays the caller exactly the
accrued `totalFeesCollected` (in ETH), resets the accumulator to zero,
and leaves every other component of the state unchanged; any non-owner
call fails with `Unauthorized`. `DEX.withdrawFees(token)`, called by the
owner, instead pays the caller the contract's ENTIRE balance of `token`
— including the custody backing the recorded pool reserves — zeroing the
contract's holding while leaving the pool records and share ledger
untouched; it maintains and resets no accrued-fee accumulator. -/
theorem C8_withdrawFees_variants (sp : PiState) (cp : Addr)
    (hc : cp = sp.owner) (hcp : cp ≠ piAddr)
    (hbalp : sp.totalFeesCollected ≤ sp.ethBalances piAddr)
    (sd : DEXState) (token cd : Addr) (hcd : cd = sd.owner)
    (hnz : sd.balances token dexAddr ≠ 0) (hcdex : cd ≠ dexAddr) :
    (errorOf (applyPiOp sp (.withdrawFeesOp cp))).isSome = false ∧
    (execPiOp sp (.withdrawFeesOp cp)).fst.ethBalances cp
      = sp.ethBalances cp + sp.totalFeesCollected ∧
    (execPiOp sp (.withdrawFeesOp cp)).fst.totalFeesCollected = 0 ∧
    (execPiOp sp (.withdrawFeesOp cp)).fst.balances = sp.balances ∧
    (execPiOp sp (.withdrawFeesOp cp)).fst.totalSupply = sp.totalSupply ∧
    (execPiOp sp (.withdrawFeesOp cp)).fst.transactionFee = sp.transactionFee ∧
    (execPiOp sp (.withdrawFeesOp cp)).fst.paused = sp.paused ∧
    (execPiOp sp (.withdrawFeesOp cp)).fst.owner = sp.owner ∧
    (execPiOp sp (.withdrawFeesOp cp)).snd = [] ∧
    (∀ c2, c2 ≠ sp.owner →
      errorOf (applyPiOp sp (.withdrawFeesOp c2)) = some .unauthorized) ∧
    (errorOf (dexWithdrawFees sd token cd)).isSome = false ∧
    (∀ s' ev, dexWithdrawFees sd token cd = .ok (s', ev) →
      s'.balances token cd = sd.balances token cd + sd.balances token dexAddr ∧
      s'.balances token dexAddr = 0 ∧
      s'.liquidityPools = sd.liquidityPools ∧
      s'.userLiquidity = sd.userLiquidity ∧
      ev = [Event.feesWithdrawn token (sd.balances token dexAddr)]) := by
  have hnb : ¬(sp.ethBalances piAddr < sp.totalFeesCollected) := by omega
  have hdok : dexWithdrawFees sd token cd = .ok
      ({ sd with balances := erc20Move sd.balances token dexAddr cd (sd.balances token dexAddr) },
        [Event.feesWithdrawn token (sd.balances token dexAddr)]) := by
    simp only [dexWithdrawFees]
    rw [if_neg (show ¬(cd ≠ sd.owner) by simp [hcd]), if_neg hnz]
  refine ⟨?_, ?_, ?_, ?_, ?_, ?_, ?_, ?_, ?_, ?_, ?_, ?_⟩
  · simp [applyPiOp, withdrawFees, hc, hnb, errorOf]
  · have hop : sp.owner ≠ piAddr := fun h2 => hcp (hc.trans h2)
    simp [execPiOp, applyPiOp, withdrawFees, hc, hnb, tokenMove, Ne.symm hcp, hcp, hop]
  · simp [execPiOp, applyPiOp, withdrawFees, hc, hnb]
  · simp [execPiOp, applyPiOp, withdrawFees, hc, hnb]
  · simp [execPiOp, applyPiOp, withdrawFees, hc, hnb]
  · simp [execPiOp, applyPiOp, withdrawFees, hc, hnb]
  · simp [execPiOp, applyPiOp, withdrawFees, hc, hnb]
  · simp [execPiOp, applyPiOp, withdrawFees, hc, hnb]
  · simp [execPiOp, applyPiOp, withdrawFees, hc, hnb]
  · intro c2 hc2
    simp [applyPiOp, withdrawFees, hc2, errorOf]
  · rw [hdok]; rfl
  · intro s' ev heq
    rw [hdok] at heq
    injection heq with heq'
    simp only [Prod.mk.injEq] at heq'
    obtain ⟨hs, hev⟩ := heq'
    subst hs; subst hev
    refine ⟨?_, ?_, rfl, rfl, rfl⟩
    · simp [erc20Move, hcdex, Ne.symm hcdex]
    · simp [erc20Move, hcdex, Ne.symm hcdex]

/-- Witness for C8 amended: on `piS0` the owner (holder 5) withdraws the
7 accrued fee units, the accumulator resets, the rest of the state is
unchanged and a non-owner call fails; on the concrete `DEX` trace
`sTrace` the owner (holder 0) is paid the full 600-token holding of
token 1 while the pool records stay as they were. -/
theorem C8_withdrawFees_variants_witness :
    (errorOf (applyPiOp piS0 (.withdrawFeesOp 5))).isSome = false ∧
    (execPiOp piS0 (.withdrawFeesOp 5)).fst.ethBalances 5
      = piS0.ethBalances 5 + piS0.totalFeesCollected ∧
    (execPiOp piS0 (.withdrawFeesOp 5)).fst.totalFeesCollected = 0 ∧
    (execPiOp piS0 (.withdrawFeesOp 5)).fst.balances = piS0.balances ∧
    (execPiOp piS0 (.withdrawFeesOp 5)).fst.totalSupply = piS0.totalSupply ∧
    (execPiOp piS0 (.withdrawFeesOp 5)).fst.transactionFee = piS0.transactionFee ∧
    (execPiOp piS0 (.withdrawFeesOp 5)).fst.paused = piS0.paused ∧
    (execPiOp piS0 (.withdrawFeesOp 5)).fst.owner = piS0.owner ∧
    (execPiOp piS0 (.withdrawFeesOp 5)).snd = [] ∧
    errorOf (applyPiOp piS0 (.withdrawFeesOp 9)) = some .unauthorized ∧
    (errorOf (dexWithdrawFees sTrace 1 0)).isSome = false ∧
    ((execDexWithdraw sTrace 1 0).fst.balances 1 0
        = sTrace.balances 1 0 + sTrace.balances 1 dexAddr ∧
      (execDexWithdraw sTrace 1 0).fst.balances 1 dexAddr = 0 ∧
      (execDexWithdraw sTrace 1 0).fst.liquidityPools = sTrace.liquidityPools ∧
      (execDexWithdraw sTrace 1 0).fst.userLiquidity = sTrace.userLiquidity ∧
      (execDexWithdraw sTrace 1 0).snd
        = [Event.feesWithdrawn 1 (sTrace.balances 1 dexAddr)]) := by
  obtain ⟨w1, w2, w3, w4, w5, w6, w7, w8, w9, w10, w11, w12⟩ :=
    C8_withdrawFees_variants piS0 5 rfl (by decide) (by decide)
      sTrace 1 0 (by decide) (by decide) (by decide)
  exact ⟨w1, w2, w3, w4, w5, w6, w7, w8, w9, w10 9 (by decide), w11,
    w12 (execDexWithdraw sTrace 1 0).fst (execDexWithdraw sTrace 1 0).snd (by rfl)⟩

/-- C10: every call to `adjustSupply` leaves `totalSupply` unchanged and
emits no event, because `getCurrentPrice` always returns `TARGET_PRICE`,
so neither the mint branch nor the burn branch is taken. -/
theorem C10_adjustSupply_noop (s : PiState) (caller : Addr) :
    getCurrentPrice s = TARGET_PRICE ∧
    (execPiOp s (.adjustOp caller)).fst.totalSupply = s.totalSupply ∧
    (execPiOp s (.adjustOp caller)).snd = [] := by
  refine ⟨rfl, ?_, ?_⟩ <;>
    by_cases h : caller = s.owner <;>
      simp [execPiOp, applyPiOp, adjustSupply, getCurrentPrice, h, lt_irrefl]

end DexSpec
